import Mathlib

/-!
# fiat_image demo: parameterised image-filter nodes

Shallow embedding of `src/demos/fiat_image.main.cpp`.

* `GaussianBlurWithGui` and `CannyWithGui` are embedded from the source, method by method
  (`f`, `Name`, `GuiParams`, the constructor).  A C++ method that may write `self` is a Lean
  function returning the new `self` next to its result.
* `float` fields are rationals (every finite float is one); `int` fields are integers: the code
  performs no arithmetic on them, it only stores, compares and passes them on.
* OpenCV and Dear ImGui are libraries outside the repository.  The OpenCV filters are a parameter
  (`OpenCV`); the ImGui widgets are small functions of what the user did in the frame (`ImGuiFrame`).
-/

namespace VisualProg

/-! ## Values -/

/-- Pixel matrix standing for `cv::Mat`: its dimensions and its raw contents. -/
structure Mat where
  rows : Nat
  cols : Nat
  data : List Nat
  deriving DecidableEq, Repr

/-- Modelled from the spec: `Image` is declared in `fiatlux/computer_vision/image_with_gui.h`, which
is not among the sources; it is the alias `using Image = cv::Mat`, as `main` feeding a `cv::Mat`
to the graph and `f` handing `asImage` to the OpenCV filters require. -/
abbrev Image := Mat

/-- Runtime type tag of the payload held by a `std::any` (`std::any::type()`). -/
inductive TypeId
  | void
  | cvMat
  | int
  | float
  | string
  | other (typeName : String)
  deriving DecidableEq, Repr

/-- The tag `typeid(Image)`, which is `typeid(cv::Mat)`. -/
def ImageTypeId : TypeId := TypeId.cvMat

/-- A `std::any`: empty, or exactly one payload of some concrete type. -/
inductive StdAny
  | empty
  | ofMat (m : Mat)
  | ofInt (i : Int)
  | ofFloat (q : ℚ)
  | ofString (s : String)
  | ofOther (typeName : String) (bytes : List Nat)
  deriving DecidableEq

/-- The tag of the payload: `std::any::type()`. -/
def StdAny.type : StdAny → TypeId
  | StdAny.empty => TypeId.void
  | StdAny.ofMat _ => TypeId.cvMat
  | StdAny.ofInt _ => TypeId.int
  | StdAny.ofFloat _ => TypeId.float
  | StdAny.ofString _ => TypeId.string
  | StdAny.ofOther n _ => TypeId.other n

/-- A `cv::Exception`, identified by its error code. -/
structure CvException where
  code : Int
  deriving DecidableEq, Repr

/-- What a call of `f` can throw. -/
inductive Exception
  | bad_any_cast
  | cv (e : CvException)
  deriving DecidableEq, Repr

/-- The cast `std::any_cast<const Image &>(x)`: the payload when `x` holds an `Image`, and
`std::bad_any_cast` for every other content (the empty `std::any` included). -/
def any_cast_Image (x : StdAny) : Except Exception Image :=
  match x with
  | StdAny.ofMat m => Except.ok m
  | _ => Except.error Exception.bad_any_cast

/-- The two OpenCV filters the nodes call.  Their bodies are outside the repository: each is a
function of its arguments that yields the destination matrix or throws a `cv::Exception`. -/
structure OpenCV where
  GaussianBlur : (src : Mat) → (ksize : Nat × Nat) → (sigmaX sigmaY : ℚ) → Except CvException Mat
  Canny : (image : Mat) → (threshold1 threshold2 : Int) → (apertureSize : Int) →
    Except CvException Mat

/-- Lifts a filter outcome into what `f` throws or returns. -/
def liftCv (r : Except CvException Mat) : Except Exception Mat :=
  match r with
  | Except.ok m => Except.ok m
  | Except.error e => Except.error (Exception.cv e)

/-! ## Widgets -/

/-- What the user did to the widgets during one frame, by widget label: the value a slider was
set to (if it was touched), whether that value was typed into the slider (Ctrl+Click turns a
slider into an input box) rather than dragged, and whether a radio button was clicked. -/
structure ImGuiFrame where
  sliderFloat : String → Option ℚ
  sliderInt : String → Option Int
  sliderTyped : String → Bool
  radioClicked : String → Bool

/-- Nobody touches anything. -/
def ImGuiFrame.idle : ImGuiFrame :=
  { sliderFloat := fun _ => none, sliderInt := fun _ => none, sliderTyped := fun _ => false,
    radioClicked := fun _ => false }

namespace ImGui

/-- Modelled from the spec: `ImGui::SliderFloat(label, &v, v_min, v_max)` belongs to Dear ImGui,
which is not among the sources.  Dragging keeps the value inside `[v_min, v_max]`; a value typed
into the slider is stored as typed, because the four-argument call passes no
`ImGuiSliderFlags_AlwaysClamp`.  The call returns whether the stored value changed.  The result is
the returned flag and the new content of `v`. -/
def SliderFloat (ui : ImGuiFrame) (label : String) (v : ℚ) (v_min v_max : ℚ) : Bool × ℚ :=
  match ui.sliderFloat label with
  | none => (false, v)
  | some w =>
    let w' := if ui.sliderTyped label then w else max v_min (min v_max w)
    (decide (w' ≠ v), w')

/-- Modelled from the spec: `ImGui::SliderInt(label, &v, v_min, v_max)` (Dear ImGui, not among
the sources), as `SliderFloat` on integers: a dragged value stays inside the bounds, a typed one
is stored unclamped. -/
def SliderInt (ui : ImGuiFrame) (label : String) (v : Int) (v_min v_max : Int) : Bool × Int :=
  match ui.sliderInt label with
  | none => (false, v)
  | some w =>
    let w' := if ui.sliderTyped label then w else max v_min (min v_max w)
    (decide (w' ≠ v), w')

/-- Modelled from the spec: `ImGui::RadioButton(label, &v, v_button)` (Dear ImGui, not among the
sources): a pressed button writes its value into `v`, and the call reports whether the button was
pressed, `if (pressed) *v = v_button; return pressed;`. -/
def RadioButton (ui : ImGuiFrame) (label : String) (v : Int) (v_button : Int) : Bool × Int :=
  let pressed := ui.radioClicked label
  (pressed, if pressed then v_button else v)

end ImGui

/-- The function `std::to_string` on an `int`. -/
def to_string (i : Int) : String := toString i

/-! ## Nodes -/

/-- Modelled from the spec: the data-with-GUI holders a node can carry in `InputGui` and
`OutputGui`; the only one the sources construct is `ImageWithGui`, declared in a header that is not
among them. -/
inductive AnyDataWithGui
  | ImageWithGui
  deriving DecidableEq, Repr

/-- Modelled from the spec: `ImageWithGui` is declared in the header that is not among the
sources; it presents a value whose payload type is `Image`. -/
def AnyDataWithGui.kind : AnyDataWithGui → TypeId
  | AnyDataWithGui.ImageWithGui => ImageTypeId

/-- The node `struct GaussianBlurWithGui : FunctionWithGui`: the two `shared_ptr` members of the
base (null until the constructor sets them) and the two parameters. -/
structure GaussianBlurWithGui where
  InputGui : Option AnyDataWithGui
  OutputGui : Option AnyDataWithGui
  sigmaX : ℚ
  sigmaY : ℚ
  deriving DecidableEq

namespace GaussianBlurWithGui

/-- The constructor `GaussianBlurWithGui()`: member initialisers, then the two `make_shared`. -/
def new : GaussianBlurWithGui :=
  let self : GaussianBlurWithGui := { InputGui := none, OutputGui := none, sigmaX := 3, sigmaY := 3 }
  let self := { self with InputGui := some AnyDataWithGui.ImageWithGui }
  let self := { self with OutputGui := some AnyDataWithGui.ImageWithGui }
  self

/-- The method `std::any f(const std::any &x)`: the outcome and the node after the call. -/
def f (cv : OpenCV) (self : GaussianBlurWithGui) (x : StdAny) :
    Except Exception StdAny × GaussianBlurWithGui :=
  let outcome : Except Exception StdAny := do
    let asImage ← any_cast_Image x
    let ksize : Nat × Nat := (0, 0)
    let blur ← liftCv (cv.GaussianBlur asImage ksize self.sigmaX self.sigmaY)
    return StdAny.ofMat blur
  (outcome, self)

/-- The method `std::string Name()`. -/
def Name (self : GaussianBlurWithGui) : String × GaussianBlurWithGui :=
  ("GaussianBlur", self)

/-- The method `bool GuiParams()`; `SetNextItemWidth` only affects layout.  The lower bound is
the literal `0.1` converted to the `float` parameter `v_min`, which is 13421773 / 2^27. -/
def GuiParams (ui : ImGuiFrame) (self : GaussianBlurWithGui) : Bool × GaussianBlurWithGui :=
  let changed := false
  let r := ImGui.SliderFloat ui "sigmaX" self.sigmaX (13421773 / 134217728) 15
  let self := { self with sigmaX := r.2 }
  let changed := changed || r.1
  let r := ImGui.SliderFloat ui "sigmaY" self.sigmaY (13421773 / 134217728) 15
  let self := { self with sigmaY := r.2 }
  let changed := changed || r.1
  (changed, self)

end GaussianBlurWithGui

/-- The node `struct CannyWithGui : FunctionWithGui`. -/
structure CannyWithGui where
  InputGui : Option AnyDataWithGui
  OutputGui : Option AnyDataWithGui
  tLower : Int
  tUpper : Int
  apertureSize : Int
  deriving DecidableEq

namespace CannyWithGui

/-- The constructor `CannyWithGui()`. -/
def new : CannyWithGui :=
  let self : CannyWithGui :=
    { InputGui := none, OutputGui := none, tLower := 100, tUpper := 200, apertureSize := 5 }
  let self := { self with InputGui := some AnyDataWithGui.ImageWithGui }
  let self := { self with OutputGui := some AnyDataWithGui.ImageWithGui }
  self

/-- The method `std::any f(const std::any &x)`: the outcome and the node after the call. -/
def f (cv : OpenCV) (self : CannyWithGui) (x : StdAny) : Except Exception StdAny × CannyWithGui :=
  let outcome : Except Exception StdAny := do
    let asImage ← any_cast_Image x
    let _ksize : Nat × Nat := (0, 0)
    let edge ← liftCv (cv.Canny asImage self.tLower self.tUpper self.apertureSize)
    return StdAny.ofMat edge
  (outcome, self)

/-- The method `std::string Name()`. -/
def Name (self : CannyWithGui) : String × CannyWithGui :=
  ("Canny", self)

/-- One turn of the loop over `apertures`: `changed |= ImGui::RadioButton(...)`. -/
def radioStep (ui : ImGuiFrame) (acc : Bool × CannyWithGui) (aperture_value : Int) :
    Bool × CannyWithGui :=
  let r := ImGui.RadioButton ui (to_string aperture_value) acc.2.apertureSize aperture_value
  (acc.1 || r.1, { acc.2 with apertureSize := r.2 })

/-- The method `bool GuiParams()`; `SetNextItemWidth`, `Text`, `SameLine` and `NewLine` only
affect layout. -/
def GuiParams (ui : ImGuiFrame) (self : CannyWithGui) : Bool × CannyWithGui :=
  let changed := false
  let r := ImGui.SliderInt ui "tLower" self.tLower 0 255
  let self := { self with tLower := r.2 }
  let changed := changed || r.1
  let r := ImGui.SliderInt ui "tUpper" self.tUpper 0 255
  let self := { self with tUpper := r.2 }
  let changed := changed || r.1
  let apertures : List Int := [3, 5, 7]
  apertures.foldl (radioStep ui) (changed, self)

end CannyWithGui

/-! ## Call sequences -/

/-- One call a client can make on a constructed node. -/
inductive Call
  | f (cv : OpenCV) (x : StdAny)
  | GuiParams (ui : ImGuiFrame)
  | Name

/-- The node after one call. -/
def GaussianBlurWithGui.step (self : GaussianBlurWithGui) : Call → GaussianBlurWithGui
  | Call.f cv x => (self.f cv x).2
  | Call.GuiParams ui => (self.GuiParams ui).2
  | Call.Name => self.Name.2

/-- The node after a sequence of calls, first call first. -/
def GaussianBlurWithGui.run (self : GaussianBlurWithGui) (calls : List Call) : GaussianBlurWithGui :=
  calls.foldl GaussianBlurWithGui.step self

/-- The node after one call. -/
def CannyWithGui.step (self : CannyWithGui) : Call → CannyWithGui
  | Call.f cv x => (self.f cv x).2
  | Call.GuiParams ui => (self.GuiParams ui).2
  | Call.Name => self.Name.2

/-- The node after a sequence of calls, first call first. -/
def CannyWithGui.run (self : CannyWithGui) (calls : List Call) : CannyWithGui :=
  calls.foldl CannyWithGui.step self

/-- The documented domain of the Canny parameters: both thresholds in `[0, 255]` and the
aperture one of 3, 5, 7. -/
def CannyWithGui.InDomain (c : CannyWithGui) : Prop :=
  (0 ≤ c.tLower ∧ c.tLower ≤ 255) ∧ (0 ≤ c.tUpper ∧ c.tUpper ≤ 255) ∧
    (c.apertureSize = 3 ∨ c.apertureSize = 5 ∨ c.apertureSize = 7)

/-- The documented domain of the aperture, "Aperture size (3, 5, or 7)". -/
def CannyWithGui.ApertureInDomain (c : CannyWithGui) : Prop :=
  c.apertureSize = 3 ∨ c.apertureSize = 5 ∨ c.apertureSize = 7

/-- A frame in which the user clicks the radio button labelled "5" and nothing else. -/
def clickFive : ImGuiFrame :=
  { ImGuiFrame.idle with radioClicked := fun label => label == "5" }

/-- A frame in which the user drags the sliders "sigmaX" and "tLower" past their upper ends (to
20 and to 300) and clicks the radio button "7". -/
def dragAndClick : ImGuiFrame :=
  { sliderFloat := fun label => if label = "sigmaX" then some 20 else none,
    sliderInt := fun label => if label = "tLower" then some 300 else none,
    sliderTyped := fun _ => false,
    radioClicked := fun label => label == "7" }

/-- A frame in which the user types 300 into the slider "tLower". -/
def typeThreeHundred : ImGuiFrame :=
  { ImGuiFrame.idle with
    sliderInt := fun label => if label = "tLower" then some 300 else none,
    sliderTyped := fun label => label == "tLower" }

/-- A stand-in OpenCV whose filters return their source unchanged, except that `Canny` rejects an
aperture other than 3, 5, 7. -/
def sampleCv : OpenCV :=
  { GaussianBlur := fun src _ _ _ => Except.ok src,
    Canny := fun image _ _ a =>
      if a = 3 ∨ a = 5 ∨ a = 7 then Except.ok image else Except.error { code := -215 } }

/-- A 1x2 matrix. -/
def sampleMat : Mat := { rows := 1, cols := 2, data := [10, 20] }

/-! ## Composition graph

`FunctionsCompositionGraph`, `FunctionWithGui` and `Split_Lut_Merge_WithGui` are declared in
headers that are not among the sources; `main` only constructs and calls them.  They are modelled
from sections 3 and 4.3 of the specification.  `P` is the type of parameter states, `V` of values,
`E` of evaluation errors and `U` of what the user did in one frame. -/

/-- Modelled from the spec: the base `FunctionWithGui` (not among the sources), as the
specification's node contract: `Name`, evaluation `f` under a parameter state, and the
parameter-control hook `GuiParams` returning the changed flag and the new parameter state. -/
structure FunctionWithGui (P V E U : Type) where
  Name : String
  parameterState : P
  f : P → V → Except E V
  GuiParams : U → P → Bool × P

/-- Modelled from the spec: a node of the graph (`TransformNode`, section 3): the function, the
index of its upstream producer (`none`: it reads the graph root), its cached output and its dirty
flag. -/
structure TransformNode (P V E U : Type) where
  function : FunctionWithGui P V E U
  upstream : Option Nat
  cachedOutput : Option V
  dirty : Bool

/-- Modelled from the spec: the class `FunctionsCompositionGraph` (not among the sources), as
the specification's `CompositionGraph`: the nodes in topological order and the root input. -/
structure FunctionsCompositionGraph (P V E U : Type) where
  nodes : List (TransformNode P V E U)
  rootInput : Option V

namespace FunctionsCompositionGraph

variable {P V E U : Type}

/-- Modelled from the spec: the chain built from an ordered list of functions, the first one
reading the root and each other one its predecessor; nothing is evaluated yet. -/
def chain : Nat → List (FunctionWithGui P V E U) → List (TransformNode P V E U)
  | _, [] => []
  | k, fn :: rest =>
    { function := fn, upstream := if k = 0 then none else some (k - 1),
      cachedOutput := none, dirty := false } :: chain (k + 1) rest

/-- Modelled from the spec: the constructor `FunctionsCompositionGraph(functions)`. -/
def new (functions : List (FunctionWithGui P V E U)) : FunctionsCompositionGraph P V E U :=
  { nodes := chain 0 functions, rootInput := none }

/-- Modelled from the spec: the mark of the upstream producer among the marks computed so far. -/
def upstreamMarked (up : Option Nat) (done : List Bool) : Bool :=
  match up with
  | some u => done.getD u false
  | none => false

/-- Modelled from the spec: transitive marking, one sweep in topological order.  A node is
marked when it is a seed or when its upstream producer is marked. -/
def reachSweep (seed : Nat → TransformNode P V E U → Bool) :
    List (TransformNode P V E U) → List Bool → List Bool
  | [], done => done
  | nd :: rest, done =>
    reachSweep seed rest (done ++ [seed done.length nd || upstreamMarked nd.upstream done])

/-- Modelled from the spec: every marked node becomes dirty; nothing else is touched. -/
def applyMarks (nodes : List (TransformNode P V E U)) (marks : List Bool) :
    List (TransformNode P V E U) :=
  List.zipWith (fun nd m => { nd with dirty := nd.dirty || m }) nodes marks

/-- Modelled from the spec: "mark that node Dirty and transitively mark every node reachable
from it Dirty". -/
def markDirty (N : Nat) (g : FunctionsCompositionGraph P V E U) :
    FunctionsCompositionGraph P V E U :=
  { g with nodes := applyMarks g.nodes (reachSweep (fun i _ => decide (i = N)) g.nodes []) }

/-- Modelled from the spec: `SetInput(value)`: "sets root Value; marks every node reachable from
the root as Dirty".  The nodes fed by the root are those without an upstream producer. -/
def SetInput (value : V) (g : FunctionsCompositionGraph P V E U) :
    FunctionsCompositionGraph P V E U :=
  { nodes := applyMarks g.nodes (reachSweep (fun _ nd => nd.upstream.isNone) g.nodes []),
    rootInput := some value }

/-- Modelled from the spec: the control hook of node `i` is invoked; its parameter state is
replaced and, when the hook returns true, the node is marked dirty with everything downstream. -/
def renderNode (u : U) (g : FunctionsCompositionGraph P V E U) (i : Nat) :
    FunctionsCompositionGraph P V E U :=
  match g.nodes[i]? with
  | none => g
  | some nd =>
    let r := nd.function.GuiParams u nd.function.parameterState
    let nd := { nd with function := { nd.function with parameterState := r.2 } }
    let g := { g with nodes := g.nodes.set i nd }
    if r.1 then markDirty i g else g

/-- Modelled from the spec: the control phase of a tick, every node in topological order. -/
def renderAll (u : U) (g : FunctionsCompositionGraph P V E U) :
    FunctionsCompositionGraph P V E U :=
  (List.range g.nodes.length).foldl (renderNode u) g

/-- Modelled from the spec: a dirty node is evaluated on `input`; on success the result
becomes the cached output and the node is clean, on failure the node is left as it was. -/
def storeResult (nd : TransformNode P V E U) (input : V) : TransformNode P V E U :=
  match nd.function.f nd.function.parameterState input with
  | Except.ok out => { nd with cachedOutput := some out, dirty := false }
  | Except.error _ => nd

/-- Modelled from the spec: the recomputation of one node, given the nodes before it as the pass
left them.  A clean node is skipped; a dirty node reads its producer's cached output (or the
root), and stays dirty when that producer is still dirty or has nothing to offer. -/
def recomputeNode (root : Option V) (done : List (TransformNode P V E U))
    (nd : TransformNode P V E U) : TransformNode P V E U :=
  if nd.dirty then
    match nd.upstream with
    | none =>
      match root with
      | none => nd
      | some v => storeResult nd v
    | some u =>
      match done[u]? with
      | none => nd
      | some up =>
        if up.dirty then nd
        else
          match up.cachedOutput with
          | none => nd
          | some v => storeResult nd v
  else nd

/-- Modelled from the spec: the recomputation pass, nodes visited in topological order. -/
def recomputeSweep (root : Option V) :
    List (TransformNode P V E U) → List (TransformNode P V E U) → List (TransformNode P V E U)
  | [], done => done
  | nd :: rest, done => recomputeSweep root rest (done ++ [recomputeNode root done nd])

/-- Modelled from the spec: the recomputation pass on the graph. -/
def recompute (g : FunctionsCompositionGraph P V E U) : FunctionsCompositionGraph P V E U :=
  { g with nodes := recomputeSweep g.rootInput g.nodes [] }

/-- Modelled from the spec: `Draw()`, one tick: the controls of every node are rendered, dirtiness
is propagated, then the recomputation pass runs. -/
def Draw (u : U) (g : FunctionsCompositionGraph P V E U) : FunctionsCompositionGraph P V E U :=
  recompute (renderAll u g)

/-- The dirty flag of node `i` (false when there is no such node). -/
def dirtyAt (g : FunctionsCompositionGraph P V E U) (i : Nat) : Bool :=
  match g.nodes[i]? with
  | some nd => nd.dirty
  | none => false

/-- The cached output of node `i`. -/
def cachedAt (g : FunctionsCompositionGraph P V E U) (i : Nat) : Option V :=
  match g.nodes[i]? with
  | some nd => nd.cachedOutput
  | none => none

/-- An edge of the graph: `u` is the upstream producer of the node at index `i`. -/
def Edge (g : FunctionsCompositionGraph P V E U) (u i : Nat) : Prop :=
  ∃ nd, g.nodes[i]? = some nd ∧ nd.upstream = some u

/-- Node `j` is reachable from node `i`: a path of edges leads from `i` to `j` (`i` itself
included). -/
def Reachable (g : FunctionsCompositionGraph P V E U) (i j : Nat) : Prop :=
  Relation.ReflTransGen g.Edge i j

/-- Node `j` is reachable from the root: from a node that reads the root input. -/
def RootReachable (g : FunctionsCompositionGraph P V E U) (j : Nat) : Prop :=
  ∃ r nd, g.nodes[r]? = some nd ∧ nd.upstream = none ∧ g.Reachable r j

/-- Node `j` is reachable from a seed of a marking sweep: from a node the sweep
starts at. -/
def SeedReachable (g : FunctionsCompositionGraph P V E U)
    (seed : Nat → TransformNode P V E U → Bool) (j : Nat) : Prop :=
  ∃ s nd, g.nodes[s]? = some nd ∧ seed s nd = true ∧ g.Reachable s j

/-- The topological order: every producer comes before its consumers. -/
def WellFormed (g : FunctionsCompositionGraph P V E U) : Prop :=
  ∀ (i : Nat) (nd : TransformNode P V E U), g.nodes[i]? = some nd →
    ∀ u, nd.upstream = some u → u < i

end FunctionsCompositionGraph

/-! ## The graph of `main` -/

/-- Modelled from the spec: the group `Split_Lut_Merge_WithGui` (declared in `lut.h`, not among
the sources) with the three members `main` reads. -/
structure Split_Lut_Merge_WithGui (P V E U : Type) where
  _split : FunctionWithGui P V E U
  _lut : FunctionWithGui P V E U
  _merge : FunctionWithGui P V E U

/-- The vector `functions` of `main`. -/
def mainFunctions {P V E U : Type} (split_lut_merge_gui : Split_Lut_Merge_WithGui P V E U) :
    List (FunctionWithGui P V E U) :=
  [split_lut_merge_gui._split, split_lut_merge_gui._lut, split_lut_merge_gui._merge]

/-- The graph of `main` after `compositionGraph.SetInput(image)`. -/
def mainGraph {P V E U : Type} (split_lut_merge_gui : Split_Lut_Merge_WithGui P V E U) (image : V) :
    FunctionsCompositionGraph P V E U :=
  let compositionGraph := FunctionsCompositionGraph.new (mainFunctions split_lut_merge_gui)
  compositionGraph.SetInput image

/-! ## The split / lookup-table / merge group -/

/-- One entry for each channel of `ColorType::BGR`. -/
structure PerChannel (L : Type) where
  b : L
  g : L
  r : L
  deriving DecidableEq, Repr

/-- Modelled from the spec: the values passed along the group (section 4.2): an image of type
`I`, or its components, one plane of type `C` for each channel. -/
inductive GroupValue (I C : Type)
  | image (i : I)
  | channels (planes : PerChannel C)
  deriving DecidableEq, Repr

/-- Modelled from the spec: the constructor `Split_Lut_Merge_WithGui(ColorType::BGR)`, whose body
is in `lut.h`, not among the sources, as the composite group of section 4.2.  `_split` takes an
image apart into its channel planes; `_lut` applies to each plane the lookup table `lut` under
that channel's own setting, the three settings being its parameter state; `_merge` reassembles
the image.  A frame gives, for each channel, the setting the user chose, if any; the control hook
of `_lut` stores the chosen settings and returns whether a setting changed.  The transforms
`split`, `lut` and `merge` are parameters. -/
def Split_Lut_Merge_WithGui.BGR {I C L : Type} [DecidableEq L] (split : I → PerChannel C)
    (lut : L → C → C) (merge : PerChannel C → I) (tables : PerChannel L) :
    Split_Lut_Merge_WithGui (PerChannel L) (GroupValue I C) Exception (PerChannel (Option L)) :=
  { _split :=
      { Name := "Split", parameterState := tables,
        f := fun _ v =>
          match v with
          | GroupValue.image i => Except.ok (GroupValue.channels (split i))
          | GroupValue.channels _ => Except.error Exception.bad_any_cast,
        GuiParams := fun _ p => (false, p) },
    _lut :=
      { Name := "Lut", parameterState := tables,
        f := fun p v =>
          match v with
          | GroupValue.channels planes =>
            Except.ok (GroupValue.channels
              { b := lut p.b planes.b, g := lut p.g planes.g, r := lut p.r planes.r })
          | GroupValue.image _ => Except.error Exception.bad_any_cast,
        GuiParams := fun u p =>
          let q : PerChannel L := { b := u.b.getD p.b, g := u.g.getD p.g, r := u.r.getD p.r }
          (decide (q ≠ p), q) },
    _merge :=
      { Name := "Merge", parameterState := tables,
        f := fun _ v =>
          match v with
          | GroupValue.channels planes => Except.ok (GroupValue.image (merge planes))
          | GroupValue.image _ => Except.error Exception.bad_any_cast,
        GuiParams := fun _ p => (false, p) } }

/-- A frame in which the user touches no lookup table. -/
def noChange {L : Type} : PerChannel (Option L) := { b := none, g := none, r := none }

/-- The graph of `main` once settled: after `SetInput(image)` and a first tick without user
action. -/
def settledMain {I C L : Type} [DecidableEq L] (split : I → PerChannel C) (lut : L → C → C)
    (merge : PerChannel C → I) (tables : PerChannel L) (image : I) :
    FunctionsCompositionGraph (PerChannel L) (GroupValue I C) Exception (PerChannel (Option L)) :=
  (mainGraph (Split_Lut_Merge_WithGui.BGR split lut merge tables) (GroupValue.image image)).Draw
    noChange

/-- A concrete split: images are lists of BGR pixels, planes are lists of numbers. -/
def sampleSplit (pixels : List (Nat × Nat × Nat)) : PerChannel (List Nat) :=
  { b := pixels.map (fun p => p.1), g := pixels.map (fun p => p.2.1),
    r := pixels.map (fun p => p.2.2) }

/-- A concrete lookup table: the channel's setting is added to every entry of its plane. -/
def sampleLut (setting : Nat) (plane : List Nat) : List Nat :=
  plane.map (fun x => x + setting)

/-- A concrete merge, the inverse of `sampleSplit`. -/
def sampleMerge (planes : PerChannel (List Nat)) : List (Nat × Nat × Nat) :=
  List.zipWith (fun x yz => (x, yz.1, yz.2)) planes.b (List.zip planes.g planes.r)

/-- The initial settings of the sample group. -/
def sampleTables : PerChannel Nat := { b := 0, g := 0, r := 0 }

/-- A two-pixel image. -/
def samplePixels : List (Nat × Nat × Nat) := [(1, 2, 3), (4, 5, 6)]

/-- The two-pixel image as a value. -/
def sampleImage : GroupValue (List (Nat × Nat × Nat)) (List Nat) :=
  GroupValue.image samplePixels

/-- The graph of `main` on the sample group, settled by a first tick without user action. -/
def settledSample :
    FunctionsCompositionGraph (PerChannel Nat) (GroupValue (List (Nat × Nat × Nat)) (List Nat))
      Exception (PerChannel (Option Nat)) :=
  settledMain sampleSplit sampleLut sampleMerge sampleTables samplePixels

theorem to_string_three : to_string 3 = "3" := by decide

theorem to_string_five : to_string 5 = "5" := by decide

theorem to_string_seven : to_string 7 = "7" := by decide

/-- The aperture after the radio loop, and the flag it accumulates. -/
theorem CannyWithGui.GuiParams_eq (ui : ImGuiFrame) (c : CannyWithGui) :
    c.GuiParams ui =
      ((((((ImGui.SliderInt ui "tLower" c.tLower 0 255).1 ||
            (ImGui.SliderInt ui "tUpper" c.tUpper 0 255).1) ||
          ui.radioClicked "3") || ui.radioClicked "5") || ui.radioClicked "7"),
        { c with
          tLower := (ImGui.SliderInt ui "tLower" c.tLower 0 255).2,
          tUpper := (ImGui.SliderInt ui "tUpper" c.tUpper 0 255).2,
          apertureSize :=
            if ui.radioClicked "7" = true then 7
            else if ui.radioClicked "5" = true then 5
            else if ui.radioClicked "3" = true then 3
            else c.apertureSize }) := by
  simp only [CannyWithGui.GuiParams, List.foldl, CannyWithGui.radioStep, ImGui.RadioButton,
    to_string_three, to_string_five, to_string_seven, Bool.false_or]

theorem SliderInt_snd_mem (ui : ImGuiFrame) (label : String) (v : Int)
    (hdrag : ui.sliderTyped label = false) (h : 0 ≤ v ∧ v ≤ 255) :
    0 ≤ (ImGui.SliderInt ui label v 0 255).2 ∧ (ImGui.SliderInt ui label v 0 255).2 ≤ 255 := by
  unfold ImGui.SliderInt
  cases ui.sliderInt label with
  | none => exact h
  | some w =>
    simp only [hdrag, Bool.false_eq_true, if_false]
    constructor
    · exact le_max_left (0 : Int) (min 255 w)
    · exact max_le (by norm_num) (min_le_left (255 : Int) w)

theorem SliderInt_fst (ui : ImGuiFrame) (label : String) (v lo hi : Int) :
    (ImGui.SliderInt ui label v lo hi).1 = true ↔ (ImGui.SliderInt ui label v lo hi).2 ≠ v := by
  unfold ImGui.SliderInt
  cases ui.sliderInt label <;> simp

theorem SliderFloat_fst (ui : ImGuiFrame) (label : String) (v lo hi : ℚ) :
    (ImGui.SliderFloat ui label v lo hi).1 = true ↔ (ImGui.SliderFloat ui label v lo hi).2 ≠ v := by
  unfold ImGui.SliderFloat
  cases ui.sliderFloat label <;> simp

theorem GaussianBlurWithGui.blur_step_gui (g : GaussianBlurWithGui) (call : Call) :
    (g.step call).InputGui = g.InputGui ∧ (g.step call).OutputGui = g.OutputGui := by
  cases call <;> simp [GaussianBlurWithGui.step, GaussianBlurWithGui.f, GaussianBlurWithGui.GuiParams,
    GaussianBlurWithGui.Name]

theorem GaussianBlurWithGui.blur_run_gui (calls : List Call) (g : GaussianBlurWithGui) :
    (g.run calls).InputGui = g.InputGui ∧ (g.run calls).OutputGui = g.OutputGui := by
  induction calls generalizing g with
  | nil => exact ⟨rfl, rfl⟩
  | cons call rest ih =>
    have h := ih (g.step call)
    have hs := g.blur_step_gui call
    simp only [GaussianBlurWithGui.run, List.foldl] at h ⊢
    exact ⟨h.1.trans hs.1, h.2.trans hs.2⟩

theorem CannyWithGui.canny_step_gui (c : CannyWithGui) (call : Call) :
    (c.step call).InputGui = c.InputGui ∧ (c.step call).OutputGui = c.OutputGui := by
  cases call <;> simp [CannyWithGui.step, CannyWithGui.f, CannyWithGui.GuiParams_eq,
    CannyWithGui.Name]

theorem CannyWithGui.canny_run_gui (calls : List Call) (c : CannyWithGui) :
    (c.run calls).InputGui = c.InputGui ∧ (c.run calls).OutputGui = c.OutputGui := by
  induction calls generalizing c with
  | nil => exact ⟨rfl, rfl⟩
  | cons call rest ih =>
    have h := ih (c.step call)
    have hs := c.canny_step_gui call
    simp only [CannyWithGui.run, List.foldl] at h ⊢
    exact ⟨h.1.trans hs.1, h.2.trans hs.2⟩

theorem CannyWithGui.GuiParams_aperture (ui : ImGuiFrame) (c : CannyWithGui)
    (h : c.ApertureInDomain) : (c.GuiParams ui).2.ApertureInDomain := by
  rw [CannyWithGui.GuiParams_eq]
  simp only [CannyWithGui.ApertureInDomain] at h ⊢
  split_ifs <;> simp [h]

theorem CannyWithGui.GuiParams_inDomain (ui : ImGuiFrame) (c : CannyWithGui)
    (hl : ui.sliderTyped "tLower" = false) (hu : ui.sliderTyped "tUpper" = false)
    (h : c.InDomain) : (c.GuiParams ui).2.InDomain := by
  have ha := CannyWithGui.GuiParams_aperture ui c h.2.2
  rw [CannyWithGui.GuiParams_eq] at ha ⊢
  exact ⟨SliderInt_snd_mem ui _ _ hl h.1, SliderInt_snd_mem ui _ _ hu h.2.1, ha⟩

theorem CannyWithGui.step_aperture (c : CannyWithGui) (call : Call) (h : c.ApertureInDomain) :
    (c.step call).ApertureInDomain := by
  cases call with
  | f cv x => exact h
  | GuiParams ui => exact CannyWithGui.GuiParams_aperture ui c h
  | Name => exact h

theorem CannyWithGui.run_aperture (calls : List Call) (c : CannyWithGui)
    (h : c.ApertureInDomain) : (c.run calls).ApertureInDomain := by
  induction calls generalizing c with
  | nil => exact h
  | cons call rest ih => exact ih (c.step call) (c.step_aperture call h)

theorem CannyWithGui.new_inDomain : CannyWithGui.new.InDomain := by
  simp [CannyWithGui.InDomain, CannyWithGui.new]

/-! ## Claims about the two filter nodes -/

/-- C1 (counterexample): on a fresh `CannyWithGui`, whose aperture is 5, a frame in which the user
clicks the radio button "5" makes `GuiParams` return true although `tLower`, `tUpper` and
`apertureSize` all hold the values they held before the call. -/
theorem GuiParams_true_without_change :
    (CannyWithGui.new.GuiParams clickFive).1 = true ∧
      (CannyWithGui.new.GuiParams clickFive).2.tLower = CannyWithGui.new.tLower ∧
      (CannyWithGui.new.GuiParams clickFive).2.tUpper = CannyWithGui.new.tUpper ∧
      (CannyWithGui.new.GuiParams clickFive).2.apertureSize = CannyWithGui.new.apertureSize := by
  decide

/-- C1 (amended): `GuiParams` returns true exactly when a widget reported: for
`GaussianBlurWithGui` that is exactly when `sigmaX` or `sigmaY` holds a different value after the
call; for `CannyWithGui` it is exactly when `tLower` or `tUpper` holds a different value or one of
the radio buttons "3", "5", "7" was pressed, and whenever a field of `CannyWithGui` holds a
different value after the call the returned boolean is true. -/
theorem GuiParams_reports_widgets (ui : ImGuiFrame) :
    (∀ g : GaussianBlurWithGui,
      ((g.GuiParams ui).1 = true ↔
        ((g.GuiParams ui).2.sigmaX ≠ g.sigmaX ∨ (g.GuiParams ui).2.sigmaY ≠ g.sigmaY))) ∧
    (∀ c : CannyWithGui,
      ((c.GuiParams ui).1 = true ↔
        ((c.GuiParams ui).2.tLower ≠ c.tLower ∨ (c.GuiParams ui).2.tUpper ≠ c.tUpper ∨
          ui.radioClicked "3" = true ∨ ui.radioClicked "5" = true ∨ ui.radioClicked "7" = true)) ∧
      (((c.GuiParams ui).2.tLower ≠ c.tLower ∨ (c.GuiParams ui).2.tUpper ≠ c.tUpper ∨
          (c.GuiParams ui).2.apertureSize ≠ c.apertureSize) → (c.GuiParams ui).1 = true)) := by
  refine ⟨fun g => ?_, fun c => ?_⟩
  · have hx := SliderFloat_fst ui "sigmaX" g.sigmaX (13421773 / 134217728) 15
    have hy := SliderFloat_fst ui "sigmaY" g.sigmaY (13421773 / 134217728) 15
    simp only [GaussianBlurWithGui.GuiParams, Bool.false_or, Bool.or_eq_true, hx, hy]
  · have hl := SliderInt_fst ui "tLower" c.tLower 0 255
    have hu := SliderInt_fst ui "tUpper" c.tUpper 0 255
    rw [CannyWithGui.GuiParams_eq]
    simp only [Bool.or_eq_true, hl, hu]
    constructor
    · tauto
    · intro h
      rcases h with h | h | h
      · tauto
      · tauto
      · by_cases h7 : ui.radioClicked "7" = true
        · tauto
        · by_cases h5 : ui.radioClicked "5" = true
          · tauto
          · by_cases h3 : ui.radioClicked "3" = true
            · tauto
            · simp [h7, h5, h3] at h

/-- C2: `f` raises the type-mismatch error (`std::bad_any_cast`) exactly when the payload type of
`x` is not `Image`, for both nodes and every parameter state; an `x` of payload type `Image` holds
an image, the cast yields it, and the outcome of `f` is then the outcome of the filter called on
that image with the node's parameters. -/
theorem f_type_mismatch_iff (cv : OpenCV) (x : StdAny) :
    (∀ g : GaussianBlurWithGui,
      ((g.f cv x).1 = Except.error Exception.bad_any_cast ↔ x.type ≠ ImageTypeId)) ∧
    (∀ c : CannyWithGui,
      ((c.f cv x).1 = Except.error Exception.bad_any_cast ↔ x.type ≠ ImageTypeId)) ∧
    (x.type = ImageTypeId → ∃ img : Image, x = StdAny.ofMat img ∧ any_cast_Image x = Except.ok img ∧
      (∀ g : GaussianBlurWithGui, (g.f cv x).1 =
        (liftCv (cv.GaussianBlur img (0, 0) g.sigmaX g.sigmaY)).map StdAny.ofMat) ∧
      (∀ c : CannyWithGui, (c.f cv x).1 =
        (liftCv (cv.Canny img c.tLower c.tUpper c.apertureSize)).map StdAny.ofMat)) := by
  refine ⟨fun g => ?_, fun c => ?_, fun hx => ?_⟩
  · cases x <;> simp [GaussianBlurWithGui.f, any_cast_Image, StdAny.type, ImageTypeId, bind,
      Except.bind, pure, Except.pure]
    rename_i m
    cases cv.GaussianBlur m (0, 0) g.sigmaX g.sigmaY <;> simp [liftCv]
  · cases x <;> simp [CannyWithGui.f, any_cast_Image, StdAny.type, ImageTypeId, bind,
      Except.bind, pure, Except.pure]
    rename_i m
    cases cv.Canny m c.tLower c.tUpper c.apertureSize <;> simp [liftCv]
  · cases x <;> simp [StdAny.type, ImageTypeId] at hx
    rename_i m
    refine ⟨m, rfl, rfl, fun g => ?_, fun c => ?_⟩
    · simp only [GaussianBlurWithGui.f, any_cast_Image, bind, Except.bind, pure, Except.pure]
      cases liftCv (cv.GaussianBlur m (0, 0) g.sigmaX g.sigmaY) <;> rfl
    · simp only [CannyWithGui.f, any_cast_Image, bind, Except.bind, pure, Except.pure]
      cases liftCv (cv.Canny m c.tLower c.tUpper c.apertureSize) <;> rfl

/-- C3: on an input that holds an `Image`, for every value of the parameter fields of a
constructed node, `f` returns exactly when the filter returns, and every value it returns has the
payload type `Image`, which is the kind of the node's `OutputGui`; no sequence of calls changes
the `OutputGui` the constructor set. -/
theorem f_result_matches_OutputGui (cv : OpenCV) (img : Image) (sigmaX sigmaY : ℚ)
    (tLower tUpper apertureSize : Int) :
    ((GaussianBlurWithGui.f cv { GaussianBlurWithGui.new with sigmaX := sigmaX, sigmaY := sigmaY }
          (StdAny.ofMat img)).1.toBool = (cv.GaussianBlur img (0, 0) sigmaX sigmaY).toBool ∧
      ∀ r, (GaussianBlurWithGui.f cv
          { GaussianBlurWithGui.new with sigmaX := sigmaX, sigmaY := sigmaY }
          (StdAny.ofMat img)).1 = Except.ok r →
        r.type = ImageTypeId ∧
        GaussianBlurWithGui.new.OutputGui.map AnyDataWithGui.kind = some r.type) ∧
    ((CannyWithGui.f cv
          { CannyWithGui.new with tLower := tLower, tUpper := tUpper, apertureSize := apertureSize }
          (StdAny.ofMat img)).1.toBool = (cv.Canny img tLower tUpper apertureSize).toBool ∧
      ∀ r, (CannyWithGui.f cv
          { CannyWithGui.new with tLower := tLower, tUpper := tUpper, apertureSize := apertureSize }
          (StdAny.ofMat img)).1 = Except.ok r →
        r.type = ImageTypeId ∧
        CannyWithGui.new.OutputGui.map AnyDataWithGui.kind = some r.type) ∧
    (∀ calls : List Call,
      (GaussianBlurWithGui.new.run calls).OutputGui = GaussianBlurWithGui.new.OutputGui ∧
      (CannyWithGui.new.run calls).OutputGui = CannyWithGui.new.OutputGui) := by
  refine ⟨?_, ?_, fun calls => ⟨(GaussianBlurWithGui.blur_run_gui calls _).2,
    (CannyWithGui.canny_run_gui calls _).2⟩⟩
  · simp only [GaussianBlurWithGui.f, any_cast_Image, bind, Except.bind, pure, Except.pure]
    cases cv.GaussianBlur img (0, 0) sigmaX sigmaY with
    | error e => simp [liftCv, Except.toBool]
    | ok m =>
      refine ⟨rfl, fun r hr => ?_⟩
      simp only [liftCv] at hr
      cases hr
      exact ⟨rfl, rfl⟩
  · simp only [CannyWithGui.f, any_cast_Image, bind, Except.bind, pure, Except.pure]
    cases cv.Canny img tLower tUpper apertureSize with
    | error e => simp [liftCv, Except.toBool]
    | ok m =>
      refine ⟨rfl, fun r hr => ?_⟩
      simp only [liftCv] at hr
      cases hr
      exact ⟨rfl, rfl⟩

/-- C4: two runs of `f` on equal inputs by nodes whose parameter fields are equal give equal
results, whatever the other members of the two nodes hold. -/
theorem f_deterministic (cv : OpenCV) (x y : StdAny) (hxy : x = y) :
    (∀ g h : GaussianBlurWithGui, g.sigmaX = h.sigmaX → g.sigmaY = h.sigmaY →
      (g.f cv x).1 = (h.f cv y).1) ∧
    (∀ c d : CannyWithGui, c.tLower = d.tLower → c.tUpper = d.tUpper →
      c.apertureSize = d.apertureSize → (c.f cv x).1 = (d.f cv y).1) := by
  subst hxy
  constructor
  · intro g h hx hy
    simp only [GaussianBlurWithGui.f, hx, hy]
  · intro c d hl hu ha
    simp only [CannyWithGui.f, hl, hu, ha]

/-- C4 (witness): two nodes that differ in their `OutputGui` only, on the same image. -/
theorem f_deterministic_witness :
    StdAny.ofMat sampleMat = StdAny.ofMat sampleMat ∧
      (GaussianBlurWithGui.new.f sampleCv (StdAny.ofMat sampleMat)).1 =
        (GaussianBlurWithGui.f sampleCv { GaussianBlurWithGui.new with OutputGui := none }
          (StdAny.ofMat sampleMat)).1 :=
  ⟨rfl, (f_deterministic sampleCv (StdAny.ofMat sampleMat) (StdAny.ofMat sampleMat) rfl).1
    GaussianBlurWithGui.new { GaussianBlurWithGui.new with OutputGui := none } rfl rfl⟩

/-- C5: `f` leaves the node as it was, whether it returns or throws: every parameter field and
the members `InputGui` and `OutputGui` keep their values (the input is a `const` reference and `f`
has no way to write it); `Name` leaves the node as it was too, so a sequence of calls without a
`GuiParams` leaves the node unchanged, while `GuiParams` can write a parameter field. -/
theorem f_leaves_node_unchanged (cv : OpenCV) (x : StdAny) :
    (∀ g : GaussianBlurWithGui, (g.f cv x).2 = g) ∧
    (∀ c : CannyWithGui, (c.f cv x).2 = c) ∧
    (∀ g : GaussianBlurWithGui, g.Name.2 = g) ∧
    (∀ c : CannyWithGui, c.Name.2 = c) ∧
    (∀ (calls : List Call), (∀ call ∈ calls, ∀ ui, call ≠ Call.GuiParams ui) →
      (∀ g : GaussianBlurWithGui, g.run calls = g) ∧ (∀ c : CannyWithGui, c.run calls = c)) ∧
    (GaussianBlurWithGui.new.GuiParams dragAndClick).2.sigmaX ≠ GaussianBlurWithGui.new.sigmaX ∧
    (CannyWithGui.new.GuiParams dragAndClick).2.apertureSize ≠ CannyWithGui.new.apertureSize := by
  refine ⟨fun _ => rfl, fun _ => rfl, fun _ => rfl, fun _ => rfl, ?_, ?_, by decide⟩
  · intro calls
    induction calls with
    | nil => exact fun _ => ⟨fun _ => rfl, fun _ => rfl⟩
    | cons call rest ih =>
      intro h
      have hrest := ih (fun c hc => h c (List.mem_cons_of_mem _ hc))
      have hcall := h call (List.mem_cons_self _ _)
      cases call with
      | f cv x => exact ⟨fun g => hrest.1 g, fun c => hrest.2 c⟩
      | GuiParams ui => exact absurd rfl (hcall ui)
      | Name => exact ⟨fun g => hrest.1 g, fun c => hrest.2 c⟩
  · simp [GaussianBlurWithGui.GuiParams, dragAndClick, ImGui.SliderFloat, GaussianBlurWithGui.new]
    norm_num

/-- C6: after any sequence of `f`, `GuiParams` and `Name` calls on a constructed node, `Name`
returns "GaussianBlur" on a `GaussianBlurWithGui` and "Canny" on a `CannyWithGui`; the two strings
are non-empty and different, so the names of a graph with one node of each kind are unique. -/
theorem Name_stable (calls : List Call) :
    (GaussianBlurWithGui.new.run calls).Name.1 = "GaussianBlur" ∧
    (CannyWithGui.new.run calls).Name.1 = "Canny" ∧
    (GaussianBlurWithGui.new.run calls).Name.1 ≠ "" ∧
    (CannyWithGui.new.run calls).Name.1 ≠ "" ∧
    (GaussianBlurWithGui.new.run calls).Name.1 ≠ (CannyWithGui.new.run calls).Name.1 ∧
    [(GaussianBlurWithGui.new.run calls).Name.1, (CannyWithGui.new.run calls).Name.1].Nodup := by
  simp only [GaussianBlurWithGui.Name, CannyWithGui.Name]
  decide

/-- C7: the constructors take no argument and give `sigmaX = 3`, `sigmaY = 3`, respectively
`tLower = 100`, `tUpper = 200`, `apertureSize = 5`; each default lies inside the range its control
offers: the sliders, set to the default, store it unclamped, and 5 is among the radio values. -/
theorem constructor_defaults :
    GaussianBlurWithGui.new.sigmaX = 3 ∧ GaussianBlurWithGui.new.sigmaY = 3 ∧
    CannyWithGui.new.tLower = 100 ∧ CannyWithGui.new.tUpper = 200 ∧
    CannyWithGui.new.apertureSize = 5 ∧
    ((1 : ℚ) / 10 ≤ GaussianBlurWithGui.new.sigmaX ∧ GaussianBlurWithGui.new.sigmaX ≤ 15) ∧
    ((1 : ℚ) / 10 ≤ GaussianBlurWithGui.new.sigmaY ∧ GaussianBlurWithGui.new.sigmaY ≤ 15) ∧
    CannyWithGui.new.InDomain ∧
    (∀ ui : ImGuiFrame, ui.sliderFloat "sigmaX" = some 3 → ui.sliderFloat "sigmaY" = some 3 →
      (GaussianBlurWithGui.new.GuiParams ui).2 = GaussianBlurWithGui.new) ∧
    (∀ ui : ImGuiFrame, ui.sliderInt "tLower" = some 100 → ui.sliderInt "tUpper" = some 200 →
      ui.radioClicked "3" = false → ui.radioClicked "5" = true → ui.radioClicked "7" = false →
      (CannyWithGui.new.GuiParams ui).2 = CannyWithGui.new) := by
  refine ⟨rfl, rfl, rfl, rfl, rfl, ?_, ?_, CannyWithGui.new_inDomain, ?_, ?_⟩
  · simp only [GaussianBlurWithGui.new]; norm_num
  · simp only [GaussianBlurWithGui.new]; norm_num
  · intro ui hx hy
    simp only [GaussianBlurWithGui.GuiParams, ImGui.SliderFloat, GaussianBlurWithGui.new, hx, hy]
    norm_num
  · intro ui hl hu h3 h5 h7
    rw [CannyWithGui.GuiParams_eq]
    simp [ImGui.SliderInt, CannyWithGui.new, hl, hu, h5, h7]

/-- C10 (counterexample): on a fresh `CannyWithGui`, a frame in which the user types 300 into
the slider "tLower" makes `GuiParams` store 300, outside `[0, 255]`: the domain predicate holds
before the call and not after it. -/
theorem typed_threshold_leaves_domain :
    CannyWithGui.new.InDomain ∧
      (CannyWithGui.new.GuiParams typeThreeHundred).2.tLower = 300 ∧
      ¬ (CannyWithGui.new.GuiParams typeThreeHundred).2.InDomain := by
  refine ⟨CannyWithGui.new_inDomain, by decide, fun h => ?_⟩
  have h300 : (CannyWithGui.new.GuiParams typeThreeHundred).2.tLower = 300 := by decide
  have hle := h.1.2
  rw [h300] at hle
  exact absurd hle (by decide)

/-- C10 (amended): the aperture stays inside its documented domain: `apertureSize` is 3, 5 or 7
on a fresh `CannyWithGui`, after every `GuiParams` call and every `f` call, hence after any
sequence of calls, and the result of `f` in such a state does not depend on what `cv::Canny` does
for another aperture: it is never invoked with one.  The whole predicate, with both thresholds in
`[0, 255]`, holds for a fresh node and is preserved by every `f` call and by every `GuiParams` call
in which no value is typed into a threshold slider. -/
theorem Canny_aperture_in_domain :
    CannyWithGui.new.ApertureInDomain ∧
    (∀ (ui : ImGuiFrame) (c : CannyWithGui), c.ApertureInDomain →
      (c.GuiParams ui).2.ApertureInDomain) ∧
    (∀ (cv : OpenCV) (x : StdAny) (c : CannyWithGui), c.ApertureInDomain →
      (c.f cv x).2.ApertureInDomain) ∧
    (∀ calls : List Call, (CannyWithGui.new.run calls).ApertureInDomain) ∧
    (∀ (calls : List Call) (cv cw : OpenCV) (x : StdAny),
      (∀ img t1 t2 a, (a = 3 ∨ a = 5 ∨ a = 7) → cv.Canny img t1 t2 a = cw.Canny img t1 t2 a) →
      ((CannyWithGui.new.run calls).f cv x).1 = ((CannyWithGui.new.run calls).f cw x).1) ∧
    CannyWithGui.new.InDomain ∧
    (∀ (cv : OpenCV) (x : StdAny) (c : CannyWithGui), c.InDomain → (c.f cv x).2.InDomain) ∧
    (∀ (ui : ImGuiFrame) (c : CannyWithGui), ui.sliderTyped "tLower" = false →
      ui.sliderTyped "tUpper" = false → c.InDomain → (c.GuiParams ui).2.InDomain) := by
  have hnew : CannyWithGui.new.ApertureInDomain := CannyWithGui.new_inDomain.2.2
  refine ⟨hnew, CannyWithGui.GuiParams_aperture, fun _ _ _ h => h,
    fun calls => CannyWithGui.run_aperture calls _ hnew, ?_, CannyWithGui.new_inDomain,
    fun _ _ _ h => h, CannyWithGui.GuiParams_inDomain⟩
  intro calls cv cw x h
  have hd := CannyWithGui.run_aperture calls _ hnew
  generalize CannyWithGui.new.run calls = c at hd ⊢
  simp only [CannyWithGui.f, h _ _ _ _ hd]

namespace FunctionsCompositionGraph

variable {P V E U : Type}

/-! ## Dirty propagation -/

theorem reachable_le (g : FunctionsCompositionGraph P V E U) (hwf : g.WellFormed) {a b : Nat}
    (h : g.Reachable a b) : a ≤ b := by
  induction h with
  | refl => exact le_refl _
  | tail _ hedge ih =>
    obtain ⟨nd, hnd, hup⟩ := hedge
    exact le_trans ih (le_of_lt (hwf _ nd hnd _ hup))

theorem reachable_lt_length (g : FunctionsCompositionGraph P V E U) {a b : Nat}
    (ha : a < g.nodes.length) (h : g.Reachable a b) : b < g.nodes.length := by
  induction h with
  | refl => exact ha
  | tail _ hedge _ =>
    obtain ⟨nd, hnd, _⟩ := hedge
    exact (List.getElem?_eq_some.mp hnd).1

theorem seedReachable_iff (g : FunctionsCompositionGraph P V E U)
    (seed : Nat → TransformNode P V E U → Bool) (j : Nat) (nd : TransformNode P V E U)
    (hj : g.nodes[j]? = some nd) :
    g.SeedReachable seed j ↔
      (seed j nd = true ∨ ∃ u, nd.upstream = some u ∧ g.SeedReachable seed u) := by
  constructor
  · rintro ⟨s, nds, hs, hseed, hreach⟩
    rcases Relation.ReflTransGen.cases_tail hreach with heq | ⟨u, hsu, hedge⟩
    · subst heq
      rw [hj] at hs
      cases hs
      exact Or.inl hseed
    · obtain ⟨ndj, hndj, hup⟩ := hedge
      rw [hj] at hndj
      cases hndj
      exact Or.inr ⟨u, hup, s, nds, hs, hseed, hsu⟩
  · rintro (hseed | ⟨u, hup, s, nds, hs, hseed, hsu⟩)
    · exact ⟨j, nd, hj, hseed, Relation.ReflTransGen.refl⟩
    · exact ⟨s, nds, hs, hseed, Relation.ReflTransGen.tail hsu ⟨nd, hj, hup⟩⟩

theorem reachSweep_spec (g : FunctionsCompositionGraph P V E U) (hwf : g.WellFormed)
    (seed : Nat → TransformNode P V E U → Bool) :
    ∀ (todo pre : List (TransformNode P V E U)) (done : List Bool),
      g.nodes = pre ++ todo → done.length = pre.length →
      (∀ j, j < pre.length → (done.getD j false = true ↔ g.SeedReachable seed j)) →
      (reachSweep seed todo done).length = g.nodes.length ∧
        ∀ j, j < g.nodes.length →
          ((reachSweep seed todo done).getD j false = true ↔ g.SeedReachable seed j) := by
  intro todo
  induction todo with
  | nil =>
    intro pre done hg hlen hdone
    simp only [List.append_nil] at hg
    simp only [reachSweep, hg]
    exact ⟨hlen, hdone⟩
  | cons nd rest ih =>
    intro pre done hg hlen hdone
    simp only [reachSweep]
    apply ih (pre ++ [nd])
    · simp [hg]
    · simp [hlen]
    · intro j hj
      simp only [List.length_append, List.length_singleton] at hj
      rcases Nat.lt_succ_iff_lt_or_eq.mp hj with hlt | heq
      · rw [List.getD_append _ _ _ _ (by omega)]
        exact hdone j hlt
      · have hnode : g.nodes[j]? = some nd := by
          rw [hg, heq, List.getElem?_append_right (le_refl _)]
          simp
        rw [List.getD_append_right _ _ _ _ (by omega)]
        have hidx : j - done.length = 0 := by omega
        rw [hidx, seedReachable_iff g seed j nd hnode, hlen, ← heq]
        simp only [List.getD_cons_zero, Bool.or_eq_true]
        apply or_congr Iff.rfl
        constructor
        · intro hm
          cases hup : nd.upstream with
          | none => simp [upstreamMarked, hup] at hm
          | some u =>
            simp only [upstreamMarked, hup] at hm
            have hu : u < pre.length := by
              have := hwf j nd hnode u hup
              omega
            exact ⟨u, rfl, (hdone u hu).mp hm⟩
        · rintro ⟨u, hup, hreach⟩
          have hu : u < pre.length := by
            have := hwf j nd hnode u hup
            omega
          simp only [upstreamMarked, hup]
          exact (hdone u hu).mpr hreach

theorem reachSweep_marks (g : FunctionsCompositionGraph P V E U) (hwf : g.WellFormed)
    (seed : Nat → TransformNode P V E U → Bool) :
    (reachSweep seed g.nodes []).length = g.nodes.length ∧
      ∀ j, j < g.nodes.length →
        ((reachSweep seed g.nodes []).getD j false = true ↔ g.SeedReachable seed j) :=
  reachSweep_spec g hwf seed g.nodes [] [] rfl rfl (fun j hj => absurd hj (Nat.not_lt_zero j))

theorem applyMarks_getElem? (nodes : List (TransformNode P V E U)) :
    ∀ (marks : List Bool) (j : Nat), marks.length = nodes.length →
      (applyMarks nodes marks)[j]? =
        (nodes[j]?).map (fun nd => { nd with dirty := nd.dirty || marks.getD j false }) := by
  induction nodes with
  | nil =>
    intro marks j _
    simp [applyMarks]
  | cons nd rest ih =>
    intro marks j hlen
    cases marks with
    | nil => simp at hlen
    | cons m ms =>
      cases j with
      | zero => simp [applyMarks]
      | succ k =>
        have := ih ms k (by simpa using hlen)
        simpa [applyMarks] using this

theorem wellFormed_of_upstreams (g : FunctionsCompositionGraph P V E U)
    (h : ∀ (i u : Nat), (g.nodes.map (fun nd => nd.upstream))[i]? = some (some u) → u < i) :
    g.WellFormed := by
  intro i nd hnd u hu
  apply h i u
  rw [List.getElem?_map, hnd, Option.map_some', hu]

theorem rootReachable_of_wellFormed (g : FunctionsCompositionGraph P V E U) (hwf : g.WellFormed) :
    ∀ j, j < g.nodes.length → g.RootReachable j := by
  intro j
  induction j using Nat.strong_induction_on with
  | _ j ih =>
    intro hj
    have hnode : g.nodes[j]? = some g.nodes[j] := List.getElem?_eq_getElem hj
    cases hup : (g.nodes[j]).upstream with
    | none => exact ⟨j, _, hnode, hup, Relation.ReflTransGen.refl⟩
    | some u =>
      have hu : u < j := hwf j _ hnode u hup
      obtain ⟨r, nd, hr, hnone, hreach⟩ := ih u hu (lt_trans hu hj)
      exact ⟨r, nd, hr, hnone, Relation.ReflTransGen.tail hreach ⟨_, hnode, hup⟩⟩

theorem markDirty_getElem? (g : FunctionsCompositionGraph P V E U) (hwf : g.WellFormed)
    (N j : Nat) :
    (g.markDirty N).nodes[j]? =
      (g.nodes[j]?).map (fun nd =>
        { nd with dirty := nd.dirty ||
            (reachSweep (fun i _ => decide (i = N)) g.nodes []).getD j false }) :=
  applyMarks_getElem? g.nodes _ j (reachSweep_marks g hwf _).1

theorem SetInput_getElem? (g : FunctionsCompositionGraph P V E U) (hwf : g.WellFormed)
    (value : V) (j : Nat) :
    (g.SetInput value).nodes[j]? =
      (g.nodes[j]?).map (fun nd =>
        { nd with dirty := nd.dirty ||
            (reachSweep (fun _ nd => nd.upstream.isNone) g.nodes []).getD j false }) :=
  applyMarks_getElem? g.nodes _ j (reachSweep_marks g hwf _).1

theorem markDirty_mark_iff (g : FunctionsCompositionGraph P V E U) (hwf : g.WellFormed)
    (N j : Nat) (hN : N < g.nodes.length) (hj : j < g.nodes.length) :
    (reachSweep (fun i _ => decide (i = N)) g.nodes []).getD j false = true ↔ g.Reachable N j := by
  rw [(reachSweep_marks g hwf _).2 j hj]
  constructor
  · rintro ⟨s, nd, _, hs, hreach⟩
    have : s = N := by simpa using hs
    subst this
    exact hreach
  · intro h
    exact ⟨N, g.nodes[N], List.getElem?_eq_getElem hN, by simp, h⟩

theorem SetInput_mark (g : FunctionsCompositionGraph P V E U) (hwf : g.WellFormed)
    (j : Nat) (hj : j < g.nodes.length) :
    (reachSweep (fun _ nd => nd.upstream.isNone) g.nodes []).getD j false = true := by
  rw [(reachSweep_marks g hwf _).2 j hj]
  obtain ⟨r, nd, hr, hnone, hreach⟩ := rootReachable_of_wellFormed g hwf j hj
  exact ⟨r, nd, hr, by simp [hnone], hreach⟩

theorem markDirty_dirtyAt (g : FunctionsCompositionGraph P V E U) (hwf : g.WellFormed)
    (N : Nat) (hN : N < g.nodes.length) (j : Nat) :
    (g.markDirty N).dirtyAt j = true ↔ (g.dirtyAt j = true ∨ g.Reachable N j) := by
  by_cases hj : j < g.nodes.length
  · have hnode : g.nodes[j]? = some g.nodes[j] := List.getElem?_eq_getElem hj
    simp only [dirtyAt, markDirty_getElem? g hwf, hnode, Option.map_some', Bool.or_eq_true,
      markDirty_mark_iff g hwf N j hN hj]
  · have hnode : g.nodes[j]? = none := List.getElem?_eq_none (by omega)
    simp only [dirtyAt, markDirty_getElem? g hwf, hnode, Option.map_none']
    constructor
    · intro h
      cases h
    · rintro (h | h)
      · cases h
      · exact absurd (reachable_lt_length g hN h) hj

theorem markDirty_unreached (g : FunctionsCompositionGraph P V E U) (hwf : g.WellFormed)
    (N : Nat) (hN : N < g.nodes.length) (j : Nat) (h : ¬ g.Reachable N j) :
    (g.markDirty N).nodes[j]? = g.nodes[j]? := by
  rw [markDirty_getElem? g hwf]
  by_cases hj : j < g.nodes.length
  · have hm : (reachSweep (fun i _ => decide (i = N)) g.nodes []).getD j false = false := by
      have := markDirty_mark_iff g hwf N j hN hj
      cases hb : (reachSweep (fun i _ => decide (i = N)) g.nodes []).getD j false with
      | false => rfl
      | true => exact absurd (this.mp hb) h
    rw [hm, List.getElem?_eq_getElem hj]
    simp
  · rw [List.getElem?_eq_none (by omega)]
    rfl

theorem markDirty_cachedAt (g : FunctionsCompositionGraph P V E U) (hwf : g.WellFormed)
    (N j : Nat) : (g.markDirty N).cachedAt j = g.cachedAt j := by
  simp only [cachedAt, markDirty_getElem? g hwf]
  cases g.nodes[j]? <;> rfl

theorem SetInput_cachedAt (g : FunctionsCompositionGraph P V E U) (hwf : g.WellFormed)
    (value : V) (j : Nat) : (g.SetInput value).cachedAt j = g.cachedAt j := by
  simp only [cachedAt, SetInput_getElem? g hwf]
  cases g.nodes[j]? <;> rfl

theorem new_upstreams (k : Nat) (functions : List (FunctionWithGui P V E U)) (i u : Nat)
    (h : ((chain k functions).map (fun nd => nd.upstream))[i]? = some (some u)) :
    u + 1 = k + i := by
  induction functions generalizing k i with
  | nil => simp [chain] at h
  | cons fn rest ih =>
    cases i with
    | zero =>
      simp only [chain, List.map_cons, List.getElem?_cons_zero, Option.some.injEq] at h
      split_ifs at h with hk
      · cases h
        omega
    | succ j =>
      simp only [chain, List.map_cons, List.getElem?_cons_succ] at h
      have := ih (k + 1) j h
      omega

theorem new_wellFormed (functions : List (FunctionWithGui P V E U)) :
    (new functions).WellFormed := by
  apply wellFormed_of_upstreams
  intro i u h
  have := new_upstreams 0 functions i u h
  omega

theorem SetInput_wellFormed (g : FunctionsCompositionGraph P V E U) (hwf : g.WellFormed)
    (value : V) : (g.SetInput value).WellFormed := by
  intro i nd hnd u hu
  rw [SetInput_getElem? g hwf] at hnd
  cases hn : g.nodes[i]? with
  | none => simp [hn] at hnd
  | some nd0 =>
    simp only [hn, Option.map_some', Option.some.injEq] at hnd
    subst hnd
    exact hwf i nd0 hn u hu

/-! ## Claims about the composition graph -/

/-- C9: every graph built from an ordered list of functions has its nodes in topological order,
also after `SetInput`.  In such a graph `SetInput` stores the root value and leaves every node, each of them reachable
from the root, dirty; marking node `N` dirty leaves a node dirty exactly when it was dirty before
or is reachable from `N`, so exactly the nodes reachable from `N` when the graph was settled; a
node that is not reachable from `N`, in particular every ancestor of `N`, keeps its dirty state and
cached output, and no cached output changes. -/
theorem dirty_propagation (g : FunctionsCompositionGraph P V E U) (hwf : g.WellFormed)
    (N : Nat) (hN : N < g.nodes.length) (value : V) :
    ((∀ functions : List (FunctionWithGui P V E U),
        (new functions).WellFormed ∧ ((new functions).SetInput value).WellFormed) ∧
      (g.SetInput value).WellFormed) ∧
    ((g.SetInput value).rootInput = some value ∧
      (∀ j, j < g.nodes.length → g.RootReachable j ∧ (g.SetInput value).dirtyAt j = true) ∧
      (∀ j, (g.SetInput value).cachedAt j = g.cachedAt j)) ∧
    (∀ j, (g.markDirty N).dirtyAt j = true ↔ (g.dirtyAt j = true ∨ g.Reachable N j)) ∧
    ((∀ j, g.dirtyAt j = false) → ∀ j, ((g.markDirty N).dirtyAt j = true ↔ g.Reachable N j)) ∧
    (∀ j, ¬ g.Reachable N j → (g.markDirty N).nodes[j]? = g.nodes[j]?) ∧
    (∀ a, g.Reachable a N → a ≠ N →
      (g.markDirty N).dirtyAt a = g.dirtyAt a ∧ (g.markDirty N).cachedAt a = g.cachedAt a) ∧
    (∀ j, (g.markDirty N).cachedAt j = g.cachedAt j) := by
  refine ⟨⟨fun functions => ⟨new_wellFormed functions,
    SetInput_wellFormed _ (new_wellFormed functions) value⟩, SetInput_wellFormed g hwf value⟩,
    ⟨rfl, fun j hj => ⟨rootReachable_of_wellFormed g hwf j hj, ?_⟩,
    SetInput_cachedAt g hwf value⟩, markDirty_dirtyAt g hwf N hN, ?_,
    markDirty_unreached g hwf N hN, ?_, markDirty_cachedAt g hwf N⟩
  · simp only [dirtyAt, SetInput_getElem? g hwf, List.getElem?_eq_getElem hj, Option.map_some',
      SetInput_mark g hwf j hj, Bool.or_true]
  · intro hclean j
    rw [markDirty_dirtyAt g hwf N hN j, hclean j]
    simp
  · intro a ha hne
    have hnot : ¬ g.Reachable N a := by
      intro hback
      have h1 := reachable_le g hwf ha
      have h2 := reachable_le g hwf hback
      omega
    have hsame := markDirty_unreached g hwf N hN a hnot
    simp only [dirtyAt, cachedAt, hsame, and_self]

end FunctionsCompositionGraph

open FunctionsCompositionGraph

/-- C9 (witness): the graph of `main` on the sample group, marked dirty at the lookup-table
node, observed at the merge node. -/
theorem dirty_propagation_witness :
    1 < settledSample.nodes.length ∧
      ((settledSample.markDirty 1).dirtyAt 2 = true ↔
        (settledSample.dirtyAt 2 = true ∨ settledSample.Reachable 1 2)) :=
  ⟨by decide, (dirty_propagation settledSample
    (wellFormed_of_upstreams settledSample (by
      intro i u h
      have hs : settledSample.nodes.map (fun nd => nd.upstream) = [none, some 0, some 1] := by
        decide
      rw [hs] at h
      rcases i with _ | _ | _ | i <;> simp at h <;> omega))
    1 (by decide) sampleImage).2.2.1 2⟩

end VisualProg
